import Mathlib

/-!
# Shallow embedding of the `token-ring` crate

Byte-level codec (`serialize.rs`), wire data model (`id.rs`, `packet.rs`,
`token.rs`, `signature.rs`), the monitor's token passer (`pass.rs`) and the
station state machines (`station.rs`), together with theorems checking the
specification's claims against this embedding.

Conventions:
* Rust `Vec<u8>` / byte buffers are `List Nat` with entries `< 256`; writers
  return the bytes they append (Rust appends to a `&mut Vec<u8>` and only
  fails on allocation, which cannot happen here).
* Rust `String` is modelled by its UTF-8 byte list.
* Readers consume a prefix of the buffer.  Their result distinguishes a
  returned error (`TResult::Err`) from a Rust `panic!`/`unwrap` abort.
* `Instant` is a rational timestamp; every function that calls
  `Instant::now()` takes the current time as an explicit parameter.
* Ed25519 is kept abstract: an arbitrary pure function
  `edVerify : key → msg → sig → Bool` stands for
  `PublicKey::verify(msg, sig).is_ok()`.
-/

namespace TokenRing

/-- Byte buffers (`Vec<u8>` / `&[u8]`). -/
abbrev Bytes := List Nat

/-- Result of a reader: a value plus the unconsumed remainder of the buffer,
a returned decode error (Rust `Err(...)`), or a Rust `panic!`/`unwrap` abort. -/
inductive RRes (α : Type) where
  | ok (a : α) (rest : Bytes)
  | err
  | panicked
deriving DecidableEq

/-- Sequencing of readers, mirroring Rust `?` on `TResult` (panics propagate). -/
def rbind {α β : Type} (r : RRes α) (f : α → Bytes → RRes β) : RRes β :=
  match r with
  | .ok a rest => f a rest
  | .err => .err
  | .panicked => .panicked

/-- Big-endian `u16` write; `as u16` truncation is the `% 2^16` below. -/
def u16be (n : Nat) : Bytes := [n / 256 % 256, n % 256]

/-- Big-endian `u32` write. -/
def u32be (n : Nat) : Bytes :=
  [n / 16777216 % 256, n / 65536 % 256, n / 256 % 256, n % 256]

/-- Big-endian `u64` write. -/
def u64be (n : Nat) : Bytes :=
  [n / 72057594037927936 % 256, n / 281474976710656 % 256,
   n / 1099511627776 % 256, n / 4294967296 % 256,
   n / 16777216 % 256, n / 65536 % 256, n / 256 % 256, n % 256]

/-- `read_u8`: one byte, `Err` on truncation. -/
def read_u8 (b : Bytes) : RRes Nat :=
  match b with
  | x :: rest => .ok x rest
  | [] => .err

/-- `read_u16::<BigEndian>`. -/
def read_u16 (b : Bytes) : RRes Nat :=
  match b with
  | x :: y :: rest => .ok (x * 256 + y) rest
  | _ => .err

/-- `read_u32::<BigEndian>`. -/
def read_u32 (b : Bytes) : RRes Nat :=
  match b with
  | x :: y :: z :: w :: rest => .ok (x * 16777216 + y * 65536 + z * 256 + w) rest
  | _ => .err

/-- `read_u64::<BigEndian>`. -/
def read_u64 (b : Bytes) : RRes Nat :=
  match b with
  | a :: c :: d :: e :: f :: g :: h :: i :: rest =>
      .ok (a * 72057594037927936 + c * 281474976710656 + d * 1099511627776 +
           e * 4294967296 + f * 16777216 + g * 65536 + h * 256 + i) rest
  | _ => .err

/-- `write_byte_arr::<N>`: `write_all` of the fixed array. -/
def write_byte_arr (arr : Bytes) : Bytes := arr

/-- `read_byte_arr::<N>`: `read_exact` into an `N`-byte array. -/
def read_byte_arr (n : Nat) (b : Bytes) : RRes Bytes :=
  if n ≤ b.length then .ok (b.take n) (b.drop n) else .err

/-- `write_byte_vec`: 2-byte big-endian length, then the bytes. -/
def write_byte_vec (v : Bytes) : Bytes := u16be v.length ++ v

/-- `read_byte_vec` as the source implements it: it reads the `u16` length,
then calls `Vec::with_capacity(len)` — a vector whose *length* is `0` — and
`read_exact(&mut vec)` on that zero-length slice, which reads nothing and
succeeds.  The payload bytes are left unconsumed and the returned vector is
always empty. -/
def read_byte_vec (b : Bytes) : RRes Bytes :=
  rbind (read_u16 b) (fun _len rest => .ok [] rest)

/-- `write_vec`: 4-byte big-endian count, then each element via `wr`. -/
def write_vec {α : Type} (wr : α → Bytes) (v : List α) : Bytes :=
  u32be v.length ++ (v.map wr).flatten

/-- Read `n` consecutive elements with reader `rd` (`read_vec`'s loop). -/
def read_count {α : Type} (rd : Bytes → RRes α) : Nat → Bytes → RRes (List α)
  | 0, b => .ok [] b
  | n + 1, b =>
      rbind (rd b) (fun x rest =>
        rbind (read_count rd n rest) (fun xs rest2 => .ok (x :: xs) rest2))

/-- `read_vec`: 4-byte big-endian count, then that many elements. -/
def read_vec {α : Type} (rd : Bytes → RRes α) (b : Bytes) : RRes (List α) :=
  rbind (read_u32 b) (fun len rest => read_count rd len rest)

/-- Is `b` a UTF-8 continuation byte (`0x80..=0xBF`)? -/
def utf8Cont (b : Nat) : Bool := 128 ≤ b && b ≤ 191

/-- UTF-8 validity of a byte list (what `String::from_utf8` checks). -/
def utf8Valid : Bytes → Bool
  | [] => true
  | b :: rest =>
    if b ≤ 127 then utf8Valid rest
    else if 194 ≤ b && b ≤ 223 then
      match rest with
      | c1 :: rest2 => utf8Cont c1 && utf8Valid rest2
      | [] => false
    else if b = 224 then
      match rest with
      | c1 :: c2 :: rest2 =>
          (160 ≤ c1 && c1 ≤ 191) && utf8Cont c2 && utf8Valid rest2
      | _ => false
    else if (225 ≤ b && b ≤ 236) || b = 238 || b = 239 then
      match rest with
      | c1 :: c2 :: rest2 => utf8Cont c1 && utf8Cont c2 && utf8Valid rest2
      | _ => false
    else if b = 237 then
      match rest with
      | c1 :: c2 :: rest2 =>
          (128 ≤ c1 && c1 ≤ 159) && utf8Cont c2 && utf8Valid rest2
      | _ => false
    else if b = 240 then
      match rest with
      | c1 :: c2 :: c3 :: rest2 =>
          (144 ≤ c1 && c1 ≤ 191) && utf8Cont c2 && utf8Cont c3 && utf8Valid rest2
      | _ => false
    else if 241 ≤ b && b ≤ 243 then
      match rest with
      | c1 :: c2 :: c3 :: rest2 =>
          utf8Cont c1 && utf8Cont c2 && utf8Cont c3 && utf8Valid rest2
      | _ => false
    else if b = 244 then
      match rest with
      | c1 :: c2 :: c3 :: rest2 =>
          (128 ≤ c1 && c1 ≤ 143) && utf8Cont c2 && utf8Cont c3 && utf8Valid rest2
      | _ => false
    else false

/-- `write_string`: the string's bytes as a length-prefixed byte vector. -/
def write_string (s : Bytes) : Bytes := write_byte_vec s

/-- `read_string`: `String::from_utf8(read_byte_vec(buf)?).unwrap()` — the
`unwrap` on invalid UTF-8 is a Rust panic. -/
def read_string (b : Bytes) : RRes Bytes :=
  rbind (read_byte_vec b) (fun v rest =>
    if utf8Valid v then .ok v rest else .panicked)

/-- IP addresses (`std::net::IpAddr`), octet lists of length 4 resp. 16. -/
inductive IpAddr where
  | v4 (octets : Bytes)
  | v6 (octets : Bytes)
deriving DecidableEq

/-- `std::net::SocketAddr`. -/
structure SockAddr where
  ip : IpAddr
  port : Nat
deriving DecidableEq

/-- `write_sock_addr`: tag byte (0 = IPv4, 1 = IPv6), octets, `u16` port. -/
def write_sock_addr (a : SockAddr) : Bytes :=
  (match a.ip with
   | .v4 o => 0 :: write_byte_arr o
   | .v6 o => 1 :: write_byte_arr o) ++ u16be a.port

/-- `read_sock_addr`: the wildcard arm of the `match` on the tag byte is
`panic!("Index out of bounds: {n}.")` in the source. -/
def read_sock_addr (b : Bytes) : RRes SockAddr :=
  rbind (read_u8 b) (fun tag rest =>
    match tag with
    | 0 => rbind (read_byte_arr 4 rest) (fun o rest2 =>
        rbind (read_u16 rest2) (fun port rest3 => .ok ⟨.v4 o, port⟩ rest3))
    | 1 => rbind (read_byte_arr 16 rest) (fun o rest2 =>
        rbind (read_u16 rest2) (fun port rest3 => .ok ⟨.v6 o, port⟩ rest3))
    | _ => .panicked)

/-- Bytes of a Rust string literal (all our literals are ASCII). -/
def ascii (s : String) : Bytes := s.data.map Char.toNat

/-! ## Wire data model (`id.rs`, `signature.rs`, `token.rs`, `packet.rs`) -/

/-- `WorkStationId`: a short label; the `name` field holds the `String`'s
UTF-8 bytes. -/
structure WorkStationId where
  name : Bytes
deriving DecidableEq

/-- `WorkStationId::new`: truncate the name to 8 bytes when longer. -/
def WorkStationId.new (name : Bytes) : WorkStationId :=
  ⟨if 8 < name.length then name.take 8 else name⟩

def WorkStationId.write (id : WorkStationId) : Bytes := write_string id.name

def WorkStationId.read (b : Bytes) : RRes WorkStationId :=
  rbind (read_string b) (fun n rest => .ok ⟨n⟩ rest)

def WorkStationId.size (id : WorkStationId) : Nat := id.name.length

/-- `Signed<T>` (`signature.rs`): Ed25519 public key, detached signature,
the value, and the exact bytes the signature covers. -/
structure Signed (α : Type) where
  key : Bytes
  signature : Bytes
  val : α
  val_bytes : Bytes
deriving DecidableEq

/-- `Signed::verify`, with Ed25519 verification abstracted as `edVerify`. -/
def Signed.verify {α : Type} (edVerify : Bytes → Bytes → Bytes → Bool)
    (s : Signed α) : Bool :=
  edVerify s.key s.val_bytes s.signature

/-- `Signed::new` for a station holding `pub_key`, with signing abstracted as
`edSign` (the keypair is identified by its public half here). -/
def Signed.new {α : Type} (edSign : Bytes → Bytes → Bytes) (pub_key : Bytes)
    (wr : α → Bytes) (val : α) : Signed α :=
  { key := pub_key, signature := edSign pub_key (wr val), val := val,
    val_bytes := wr val }

/-- `Signed::write`: key, signature, then the *stored* value bytes
length-prefixed. -/
def Signed.write {α : Type} (s : Signed α) : Bytes :=
  write_byte_arr s.key ++ write_byte_arr s.signature ++ write_byte_vec s.val_bytes

/-- `Signed::read`.  `PublicKey::from_bytes` / `Signature::from_bytes` can
reject malformed key or signature bytes; those checks are abstracted as
`edKeyOk` / `edSigOk` (a failure is returned as an error via `?`).  The value
is re-parsed from the recovered `val_bytes`; leftover bytes inside
`val_bytes` are not checked, exactly as in the source. -/
def Signed.read {α : Type} (edKeyOk edSigOk : Bytes → Bool)
    (rd : Bytes → RRes α) (b : Bytes) : RRes (Signed α) :=
  rbind (read_byte_arr 32 b) (fun key rest =>
    if edKeyOk key then
      rbind (read_byte_arr 64 rest) (fun sg rest2 =>
        if edSigOk sg then
          rbind (read_byte_vec rest2) (fun vb rest3 =>
            match rd vb with
            | .ok v _ => .ok { key := key, signature := sg, val := v, val_bytes := vb } rest3
            | .err => .err
            | .panicked => .panicked)
        else .err)
    else .err)

/-- `Signed::size`: `PUBLIC_KEY_LENGTH + SIGNATURE_LENGTH + val_bytes.len()`. -/
def Signed.size {α : Type} (s : Signed α) : Nat :=
  32 + 64 + s.val_bytes.length

/-- `TokenHeader`: origin id and a `u64` Unix timestamp in seconds. -/
structure TokenHeader where
  origin : WorkStationId
  timestamp : Nat
deriving DecidableEq

def TokenHeader.write (h : TokenHeader) : Bytes :=
  h.origin.write ++ u64be h.timestamp

def TokenHeader.read (b : Bytes) : RRes TokenHeader :=
  rbind (WorkStationId.read b) (fun origin rest =>
    rbind (read_u64 rest) (fun ts rest2 => .ok ⟨origin, ts⟩ rest2))

/-- `TokenHeader::size` as written in the source: `origin.size() + 4`. -/
def TokenHeader.size (h : TokenHeader) : Nat := h.origin.size + 4

/-- `TokenSendMode`. -/
inductive TokenSendMode where
  | Unicast (dest : WorkStationId)
  | Broadcast
deriving DecidableEq

def TokenSendMode.write : TokenSendMode → Bytes
  | .Unicast dest => 0 :: dest.write
  | .Broadcast => [1]

/-- `TokenSendMode::read`; the wildcard tag arm is a `panic!` in the source. -/
def TokenSendMode.read (b : Bytes) : RRes TokenSendMode :=
  rbind (read_u8 b) (fun tag rest =>
    match tag with
    | 0 => rbind (WorkStationId.read rest) (fun dest rest2 => .ok (.Unicast dest) rest2)
    | 1 => .ok .Broadcast rest
    | _ => .panicked)

def TokenSendMode.size : TokenSendMode → Nat
  | .Unicast dest => 1 + dest.size
  | .Broadcast => 1

/-- `TokenFrameId`: source id and a `u64` Unix timestamp. -/
structure TokenFrameId where
  source : WorkStationId
  timestamp : Nat
deriving DecidableEq

def TokenFrameId.write (f : TokenFrameId) : Bytes :=
  f.source.write ++ u64be f.timestamp

def TokenFrameId.read (b : Bytes) : RRes TokenFrameId :=
  rbind (WorkStationId.read b) (fun source rest =>
    rbind (read_u64 rest) (fun ts rest2 => .ok ⟨source, ts⟩ rest2))

/-- `TokenFrameId::size` as written in the source: `source.size() + 4`
(its comment still says the timestamp is stored as an `f32`). -/
def TokenFrameId.size (f : TokenFrameId) : Nat := f.source.size + 4

/-- `TokenFrameType`. -/
inductive TokenFrameType where
  | Empty
  | Data (send_mode : TokenSendMode) (seq : Nat) (payload : Bytes)
  | DataReceived (source : WorkStationId) (seq : Nat)
deriving DecidableEq

def TokenFrameType.write : TokenFrameType → Bytes
  | .Empty => [0]
  | .Data send_mode seq payload =>
      1 :: (send_mode.write ++ u16be seq ++ write_byte_vec payload)
  | .DataReceived source seq => 2 :: (source.write ++ u16be seq)

/-- `TokenFrameType::read`; the wildcard tag arm is a `panic!` in the source. -/
def TokenFrameType.read (b : Bytes) : RRes TokenFrameType :=
  rbind (read_u8 b) (fun tag rest =>
    match tag with
    | 0 => .ok .Empty rest
    | 1 => rbind (TokenSendMode.read rest) (fun sm rest2 =>
        rbind (read_u16 rest2) (fun seq rest3 =>
          rbind (read_byte_vec rest3) (fun payload rest4 =>
            .ok (.Data sm seq payload) rest4)))
    | 2 => rbind (WorkStationId.read rest) (fun source rest2 =>
        rbind (read_u16 rest2) (fun seq rest3 => .ok (.DataReceived source seq) rest3))
    | _ => .panicked)

def TokenFrameType.size : TokenFrameType → Nat
  | .Empty => 1
  | .Data send_mode _ payload => 1 + (send_mode.size + 2 + payload.length)
  | .DataReceived source _ => 1 + (source.size + 2)

/-- `TokenFrame`. -/
structure TokenFrame where
  id : TokenFrameId
  content : TokenFrameType
deriving DecidableEq

def TokenFrame.write (f : TokenFrame) : Bytes := f.id.write ++ f.content.write

def TokenFrame.read (b : Bytes) : RRes TokenFrame :=
  rbind (TokenFrameId.read b) (fun id rest =>
    rbind (TokenFrameType.read rest) (fun content rest2 => .ok ⟨id, content⟩ rest2))

def TokenFrame.size (f : TokenFrame) : Nat := f.id.size + f.content.size

/-- `Token`: a signed header and the frame list. -/
structure Token where
  header : Signed TokenHeader
  frames : List TokenFrame
deriving DecidableEq

def Token.write (t : Token) : Bytes :=
  t.header.write ++ write_vec TokenFrame.write t.frames

def Token.read (edKeyOk edSigOk : Bytes → Bool) (b : Bytes) : RRes Token :=
  rbind (Signed.read edKeyOk edSigOk TokenHeader.read b) (fun header rest =>
    rbind (read_vec TokenFrame.read rest) (fun frames rest2 => .ok ⟨header, frames⟩ rest2))

/-- `Token::size` as written in the source: header plus the frames, without
the 4-byte frame-count that `write_vec` emits. -/
def Token.size (t : Token) : Nat :=
  t.header.size + (t.frames.map TokenFrame.size).sum

/-- `PacketHeader`: just the sender's id. -/
structure PacketHeader where
  source : WorkStationId
deriving DecidableEq

def PacketHeader.write (h : PacketHeader) : Bytes := h.source.write

def PacketHeader.read (b : Bytes) : RRes PacketHeader :=
  rbind (WorkStationId.read b) (fun source rest => .ok ⟨source⟩ rest)

def PacketHeader.size (h : PacketHeader) : Nat := h.source.size

/-- `JoinAnswerResult`. -/
inductive JoinAnswerResult where
  | Confirm (id : WorkStationId)
  | Deny (reason : Bytes)
deriving DecidableEq

def JoinAnswerResult.write : JoinAnswerResult → Bytes
  | .Confirm id => 0 :: id.write
  | .Deny reason => 1 :: write_byte_vec reason

/-- `JoinAnswerResult::read`: `Deny` goes through
`String::from_utf8(..).unwrap()`; the wildcard tag arm is a `panic!`. -/
def JoinAnswerResult.read (b : Bytes) : RRes JoinAnswerResult :=
  rbind (read_u8 b) (fun tag rest =>
    match tag with
    | 0 => rbind (WorkStationId.read rest) (fun id rest2 => .ok (.Confirm id) rest2)
    | 1 => rbind (read_byte_vec rest) (fun v rest2 =>
        if utf8Valid v then .ok (.Deny v) rest2 else .panicked)
    | _ => .panicked)

def JoinAnswerResult.size : JoinAnswerResult → Nat
  | .Confirm id => 1 + id.size
  | .Deny reason => 1 + reason.length

/-- `PacketType`: the four on-wire messages. -/
inductive PacketType where
  | JoinRequest (pw : Bytes)
  | JoinReply (result : JoinAnswerResult)
  | TokenPass (token : Token)
  | Leave
deriving DecidableEq

def PacketType.write : PacketType → Bytes
  | .JoinRequest pw => 0 :: write_string pw
  | .JoinReply result => 1 :: result.write
  | .TokenPass token => 2 :: token.write
  | .Leave => [3]

/-- `PacketType::read`; the wildcard tag arm is a `panic!` in the source. -/
def PacketType.read (edKeyOk edSigOk : Bytes → Bool) (b : Bytes) : RRes PacketType :=
  rbind (read_u8 b) (fun tag rest =>
    match tag with
    | 0 => rbind (read_string rest) (fun pw rest2 => .ok (.JoinRequest pw) rest2)
    | 1 => rbind (JoinAnswerResult.read rest) (fun r rest2 => .ok (.JoinReply r) rest2)
    | 2 => rbind (Token.read edKeyOk edSigOk rest) (fun t rest2 => .ok (.TokenPass t) rest2)
    | 3 => .ok .Leave rest
    | _ => .panicked)

def PacketType.size : PacketType → Nat
  | .JoinRequest pw => 1 + pw.length
  | .JoinReply result => 1 + result.size
  | .TokenPass token => 1 + token.size
  | .Leave => 1

/-- `Packet`: signed header plus content. -/
structure Packet where
  header : Signed PacketHeader
  content : PacketType
deriving DecidableEq

def Packet.write (p : Packet) : Bytes := p.header.write ++ p.content.write

def Packet.read (edKeyOk edSigOk : Bytes → Bool) (b : Bytes) : RRes Packet :=
  rbind (Signed.read edKeyOk edSigOk PacketHeader.read b) (fun header rest =>
    rbind (PacketType.read edKeyOk edSigOk rest) (fun content rest2 =>
      .ok ⟨header, content⟩ rest2))

def Packet.size (p : Packet) : Nat := p.header.size + p.content.size

/-! ## Errors (`err.rs`)

`TResult` is `Result<T, GlobalError>`; every protocol error the embedded
operations produce goes through `GlobalError::Internal(TokenRingError)`, so
the `Internal` wrapper is elided and `TResult` is modelled as
`Except TokenRingError`. -/

/-- `TokenRingError`. -/
inductive TokenRingError where
  | InvalidPacketHeader
  | NotConnected
  | AlreadyConnected
  | StationNotRegistered (id : TokenRing.WorkStationId) (addr : TokenRing.SockAddr)
  | InvalidSignature
  | InvalidToken (id : TokenRing.WorkStationId) (token : TokenRing.Token)
  | RejectedJoinAttempt (id : TokenRing.WorkStationId) (reason : Bytes)
  | FailedJoinAttempt (reason : Bytes)
  | InvalidWorkStationId (got expected : TokenRing.WorkStationId)
  | InvalidSocketAddress (addr : TokenRing.SockAddr)
  | EmptyRing
  | TokenPending
deriving DecidableEq

/-- `TResult<T>` with the `GlobalError::Internal` wrapper elided. -/
abbrev TResult (α : Type := Unit) := Except TokenRingError α

instance {ε α : Type} [DecidableEq ε] [DecidableEq α] : DecidableEq (Except ε α) :=
  fun a b =>
    match a, b with
    | .ok x, .ok y =>
      if h : x = y then isTrue (by rw [h])
      else isFalse (fun hh => h (by injection hh))
    | .error e, .error f =>
      if h : e = f then isTrue (by rw [h])
      else isFalse (fun hh => h (by injection hh))
    | .ok _, .error _ => isFalse (fun hh => Except.noConfusion hh)
    | .error _, .ok _ => isFalse (fun hh => Except.noConfusion hh)

/-! ## Token passer (`pass.rs`)

`station_status: HashMap<WorkStationId, StationStatus>` is modelled as the
list of its entries **in the hash map's iteration order** (the order `iter`,
`iter_mut` and `keys` yield, which for `std::collections::HashMap` is
arbitrary — the source's own TODO at `pass.rs:21` notes that it is not
insertion order).  `Instant` is a point on an ordered time line (`ℤ`);
functions that call `Instant::now()` take `now` explicitly, and
`duration_since` is subtraction. -/

/-- `TokenPassMode`. -/
inductive TokenPassMode where
  | Idle
  | Passed
  | Received
deriving DecidableEq

/-- `TokenPasser`.  `state` is the in-flight `TokenState(sent_to, sent_at)`;
each `station_status` entry pairs an id with its `held_this_round` flag. -/
structure TokenPasser where
  curr_token : Option TokenRing.Token
  state : Option (TokenRing.WorkStationId × ℤ)
  pass_mode : TokenPassMode
  max_passover_time : ℤ
  station_status : List (TokenRing.WorkStationId × Bool)
deriving DecidableEq

namespace TokenPasser

/-- `TokenPasser::new`. -/
def new (max_passover_time : ℤ) : TokenPasser :=
  { curr_token := none, state := none, pass_mode := .Idle,
    max_passover_time := max_passover_time, station_status := [] }

/-- Does the status table contain `id` (`get_station(id).is_some()`)? -/
def hasStation (tp : TokenPasser) (id : TokenRing.WorkStationId) : Bool :=
  tp.station_status.any (fun e => decide (e.1 = id))

/-- The `held_this_round` flag stored for `id`, if present. -/
def flagOf (tp : TokenPasser) (id : TokenRing.WorkStationId) : Option Bool :=
  (tp.station_status.find? (fun e => decide (e.1 = id))).map Prod.snd

/-- `status.0 = v` through `get_mut`: update the flag stored for `id`. -/
def setFlag (l : List (TokenRing.WorkStationId × Bool))
    (id : TokenRing.WorkStationId) (v : Bool) :
    List (TokenRing.WorkStationId × Bool) :=
  l.map (fun e => if e.1 = id then (e.1, v) else e)

/-- `pass_ready`: ready when the current holder replied (`Received`), when
the holder timed out (`elapsed ≥ max_passover_time`), or when nothing is in
flight. -/
def pass_ready (tp : TokenPasser) (now : ℤ) : Bool :=
  match tp.state with
  | some (_, send_time) =>
    match tp.pass_mode with
    | .Received => true
    | _ => if tp.max_passover_time ≤ now - send_time then true else false
  | none => true

/-- `check_token_validity`: in-flight state present, within the time limit,
header signature verifies, sender is the expected holder. -/
def check_token_validity (edVerify : Bytes → Bytes → Bytes → Bool)
    (tp : TokenPasser) (token : TokenRing.Token)
    (sender_id : TokenRing.WorkStationId) (now : ℤ) : TResult :=
  match tp.state with
  | some (id, send_time) =>
    if now - send_time ≤ tp.max_passover_time then
      if token.header.verify edVerify then
        if sender_id = id then .ok ()
        else .error (.InvalidToken sender_id token)
      else .error (.InvalidToken sender_id token)
    else .error (.InvalidToken sender_id token)
  | none => .error (.InvalidToken sender_id token)

/-- `recv_token`: unknown sender is rejected outright; a known sender is
ticked off and `pass_mode` becomes `Received` whether or not the token is
valid; the stored token is replaced only on success. -/
def recv_token (edVerify : Bytes → Bytes → Bytes → Bool) (tp : TokenPasser)
    (new_token : TokenRing.Token) (sender_id : TokenRing.WorkStationId)
    (now : ℤ) : TokenPasser × TResult :=
  if tp.hasStation sender_id then
    let tp1 := { tp with station_status := setFlag tp.station_status sender_id true,
                         pass_mode := .Received }
    match check_token_validity edVerify tp1 new_token sender_id now with
    | .ok () => ({ tp1 with curr_token := some new_token }, .ok ())
    | .error e => (tp1, .error e)
  else
    (tp, .error (.InvalidToken sender_id new_token))

/-- `pass_token`. -/
def pass_token (tp : TokenPasser) (to_id : TokenRing.WorkStationId) (now : ℤ) :
    TokenPasser :=
  { tp with state := some (to_id, now), pass_mode := .Passed }

/-- `select_next_station`: none on an empty table; otherwise the first entry
(in iteration order) whose flag is false; otherwise reset every flag and
take the last entry (in iteration order).  The chosen id goes straight into
`pass_token`. -/
def select_next_station (tp : TokenPasser) (now : ℤ) :
    Option TokenRing.WorkStationId × TokenPasser :=
  if tp.station_status.length = 0 then (none, tp)
  else
    match tp.station_status.find? (fun e => !e.2) with
    | some e => (some e.1, tp.pass_token e.1 now)
    | none =>
      let reset := tp.station_status.map (fun e => (e.1, false))
      match reset.getLast? with
      | some l => (some l.1, (({ tp with station_status := reset } : TokenPasser).pass_token l.1 now))
      | none => (none, tp)  -- unreachable: the status table is non-empty here

end TokenPasser

/-! ## Stations (`station.rs`)

The two `HashMap`s of the monitor (`connected_stations` and the passer's
`station_status`) are association lists in iteration order; a fresh key is
appended.  `send_packet` signs a `PacketHeader` with the station's keypair
(`Signed::new`) and enqueues the packet — the send queue is modelled as the
list `sent_packets` of enqueued `(Packet, destination)` items.  `edSign`
abstracts Ed25519 signing with the station's keypair (identified by its
public half), `edVerify` abstracts verification. -/

/-- `QueuedPacket`: a packet tagged with a socket address. -/
abbrev QueuedPacket := Packet × SockAddr

/-- Decimal digits of `n` as ASCII bytes (for `format!`ed reasons). -/
def natAscii (n : Nat) : Bytes := (Nat.toDigits 10 n).map Char.toNat

/-- `ActiveStation` (monitor): config, membership, passer, send queue. -/
structure ActiveStation where
  id : WorkStationId
  pub_key : Bytes
  password : Bytes
  accept_connections : Bool
  max_connections : Nat
  connected_stations : List (WorkStationId × SockAddr)
  token_passer : TokenPasser
  sent_packets : List QueuedPacket
deriving DecidableEq

namespace ActiveStation

/-- `ActiveStation::host`: empty membership, fresh passer, empty queues. -/
def host (id : WorkStationId) (pub_key password : Bytes)
    (accept_connections : Bool) (max_connections : Nat)
    (max_passover_time : ℤ) : ActiveStation :=
  { id := id, pub_key := pub_key, password := password,
    accept_connections := accept_connections, max_connections := max_connections,
    connected_stations := [], token_passer := TokenPasser.new max_passover_time,
    sent_packets := [] }

/-- `get_station_addr`. -/
def get_station_addr (s : ActiveStation) (id : WorkStationId) : Option SockAddr :=
  (s.connected_stations.find? (fun e => decide (e.1 = id))).map Prod.snd

/-- `send_packet`: sign a header with the monitor's keypair and enqueue. -/
def send_packet (edSign : Bytes → Bytes → Bytes) (s : ActiveStation)
    (dest_addr : SockAddr) (packet : PacketType) : ActiveStation :=
  { s with sent_packets := s.sent_packets ++
      [(⟨Signed.new edSign s.pub_key PacketHeader.write ⟨s.id⟩, packet⟩, dest_addr)] }

/-- `add_station`: replace the stored address when the id is already a
member; otherwise insert it into the membership table *and* add a status
entry with `held_this_round = false`. -/
def add_station (s : ActiveStation) (id : WorkStationId) (addr : SockAddr) :
    ActiveStation :=
  if (s.get_station_addr id).isSome then
    { s with connected_stations :=
        s.connected_stations.map (fun e => if e.1 = id then (e.1, addr) else e) }
  else
    { s with connected_stations := s.connected_stations ++ [(id, addr)],
             token_passer := { s.token_passer with
               station_status := s.token_passer.station_status ++ [(id, false)] } }

/-- `remove_station`: drop the id from both tables when it is a member. -/
def remove_station (s : ActiveStation) (id : WorkStationId) : ActiveStation :=
  if (s.get_station_addr id).isSome then
    { s with connected_stations :=
        s.connected_stations.eraseP (fun e => decide (e.1 = id)),
             token_passer := { s.token_passer with
               station_status :=
                 s.token_passer.station_status.eraseP (fun e => decide (e.1 = id)) } }
  else s

/-- `check_join_request` (the `format!`ed member count of the max-connections
reason is rendered with `natAscii`). -/
def check_join_request (s : ActiveStation) (join_id : WorkStationId)
    (pw : Bytes) : TResult :=
  if s.accept_connections = false then
    .error (.RejectedJoinAttempt join_id (ascii "New connections blocked"))
  else if s.max_connections ≤ s.connected_stations.length then
    .error (.RejectedJoinAttempt join_id
      (ascii "Max connections reached (" ++ natAscii s.max_connections ++ ascii ")"))
  else if ¬ s.password = pw then
    .error (.RejectedJoinAttempt join_id (ascii "Incorrect password"))
  else .ok ()

/-- `recv_join_request`: admission control (see `check_join_request`), with a
`Deny` reply on every rejection and `Confirm` + `add_station` on success. -/
def recv_join_request (edSign : Bytes → Bytes → Bytes) (s : ActiveStation)
    (join_addr : SockAddr) (join_id : WorkStationId) (pw : Bytes) :
    ActiveStation × TResult :=
  let continue_check : ActiveStation → ActiveStation × TResult := fun s0 =>
    match s0.check_join_request join_id pw with
    | .error e =>
        (s0.send_packet edSign join_addr (.JoinReply (.Deny (ascii "Invalid config"))),
         .error e)
    | .ok () =>
        let s1 := s0.send_packet edSign join_addr (.JoinReply (.Confirm s0.id))
        (s1.add_station join_id join_addr, .ok ())
  match s.get_station_addr join_id with
  | some addr =>
    if addr = join_addr then
      (s.send_packet edSign addr (.JoinReply (.Deny (ascii "Already joined"))),
       .error (.RejectedJoinAttempt join_id (ascii "Already Joined")))
    else continue_check s
  | none => continue_check s

/-- `recv_token_pass`: a member passing the token from an address other than
its registered one is rejected; otherwise delegate to the passer. -/
def recv_token_pass (edVerify : Bytes → Bytes → Bytes → Bool)
    (s : ActiveStation) (addr : SockAddr) (id : WorkStationId) (token : Token)
    (now : ℤ) : ActiveStation × TResult :=
  match s.get_station_addr id with
  | some station_addr =>
    if station_addr ≠ addr then (s, .error (.InvalidToken id token))
    else
      let r := s.token_passer.recv_token edVerify token id now
      ({ s with token_passer := r.1 }, r.2)
  | none =>
      let r := s.token_passer.recv_token edVerify token id now
      ({ s with token_passer := r.1 }, r.2)

/-- `recv_leave`. -/
def recv_leave (s : ActiveStation) (addr : SockAddr) (id : WorkStationId) :
    ActiveStation × TResult :=
  match s.get_station_addr id with
  | some registered_addr =>
    if registered_addr = addr then (s.remove_station id, .ok ())
    else (s, .error (.StationNotRegistered id addr))
  | none => (s, .error (.StationNotRegistered id addr))

/-- `generate_token`: a fresh token signed by the monitor (`TokenHeader::new`
reads the wall clock, passed here as `wall`). -/
def generate_token (edSign : Bytes → Bytes → Bytes) (s : ActiveStation)
    (wall : Nat) : Token :=
  ⟨Signed.new edSign s.pub_key TokenHeader.write ⟨s.id, wall⟩, []⟩

/-- `pass_on_token` (monitor): select the next station, look its address up
(`unwrap` — `none` models that panic), clone the current token or mint a
fresh one, record the pass and enqueue `TokenPass`. -/
def pass_on_token (edSign : Bytes → Bytes → Bytes) (s : ActiveStation)
    (now : ℤ) (wall : Nat) : Option (ActiveStation × TResult) :=
  match s.token_passer.select_next_station now with
  | (none, tp1) => some ({ s with token_passer := tp1 }, .error .EmptyRing)
  | (some next_station, tp1) =>
    match s.get_station_addr next_station with
    | none => none  -- `.unwrap()` on a missing address panics
    | some addr =>
      let curr_token :=
        match tp1.curr_token with
        | some t => t
        | none => s.generate_token edSign wall
      some (({ s with token_passer := tp1.pass_token next_station now
               } : ActiveStation).send_packet edSign addr
              (.TokenPass curr_token), .ok ())

/-- `poll_token_pass`. -/
def poll_token_pass (edSign : Bytes → Bytes → Bytes) (s : ActiveStation)
    (now : ℤ) (wall : Nat) : Option (ActiveStation × TResult) :=
  if s.token_passer.pass_ready now then s.pass_on_token edSign now wall
  else some (s, .error .TokenPending)

/-- `verify_recv_packet`: envelope signature, and membership for anything
other than a `JoinRequest`. -/
def verify_recv_packet (edVerify : Bytes → Bytes → Bytes → Bool)
    (s : ActiveStation) (packet : QueuedPacket) : TResult :=
  if packet.1.header.verify edVerify then
    match packet.1.content with
    | .JoinRequest _ => .ok ()
    | _ =>
      if (s.get_station_addr packet.1.header.val.source).isNone then
        .error (.StationNotRegistered packet.1.header.val.source packet.2)
      else .ok ()
  else .error .InvalidSignature

/-- `recv_all` over the queued packets, as the source implements it: a
packet failing verification is logged and then `return Err(e)` — the drain
loop stops, leaving the rest of the queue unprocessed; a `?` on a dispatch
error stops it likewise. -/
def recv_all (edVerify : Bytes → Bytes → Bytes → Bool)
    (edSign : Bytes → Bytes → Bytes) :
    ActiveStation → List QueuedPacket → ℤ → ActiveStation × TResult
  | s, [], _ => (s, .ok ())
  | s, qp :: rest, now =>
    match s.verify_recv_packet edVerify qp with
    | .error e => (s, .error e)
    | .ok () =>
      let step :=
        match qp.1.content with
        | .JoinRequest pw => s.recv_join_request edSign qp.2 qp.1.header.val.source pw
        | .JoinReply _ => (s, .ok ())  -- logged and discarded
        | .TokenPass token =>
            s.recv_token_pass edVerify qp.2 qp.1.header.val.source token now
        | .Leave => s.recv_leave qp.2 qp.1.header.val.source
      match step with
      | (s1, .ok _) => recv_all edVerify edSign s1 rest now
      | (s1, .error e) => (s1, .error e)

end ActiveStation

/-- `ConnectionMode` of a passive station. -/
inductive ConnectionMode where
  | Offline
  | Pending (addr : SockAddr)
  | Connected (id : WorkStationId) (addr : SockAddr)
deriving DecidableEq

/-- `PassiveStation`. -/
structure PassiveStation where
  id : WorkStationId
  pub_key : Bytes
  conn_mode : ConnectionMode
  cached_frames : List TokenFrame
  curr_token : Option Token
  sent_packets : List QueuedPacket
deriving DecidableEq

namespace PassiveStation

/-- `send_packet_to`: sign a header and enqueue to `addr`. -/
def send_packet_to (edSign : Bytes → Bytes → Bytes) (ps : PassiveStation)
    (addr : SockAddr) (packet : PacketType) : PassiveStation :=
  { ps with sent_packets := ps.sent_packets ++
      [(⟨Signed.new edSign ps.pub_key PacketHeader.write ⟨ps.id⟩, packet⟩, addr)] }

/-- `send_packet`: only a `Connected` station has a peer to send to. -/
def send_packet (edSign : Bytes → Bytes → Bytes) (ps : PassiveStation)
    (packet : PacketType) : PassiveStation × TResult :=
  match ps.conn_mode with
  | .Connected _ addr => (ps.send_packet_to edSign addr packet, .ok ())
  | _ => (ps, .error .NotConnected)

/-- `append_frame` (`TokenFrameId::new` reads the wall clock). -/
def append_frame (ps : PassiveStation) (frame : TokenFrameType) (wall : Nat) :
    PassiveStation :=
  { ps with cached_frames := ps.cached_frames ++ [⟨⟨ps.id, wall⟩, frame⟩] }

/-- `recv_token_pass` (passive): append all staged frames to the incoming
token and hold it (an already-held token is overwritten). -/
def recv_token_pass (ps : PassiveStation) (token : Token) : PassiveStation :=
  { ps with curr_token := some { token with frames := token.frames ++ ps.cached_frames },
            cached_frames := [] }

/-- `pass_on_token` (passive): `curr_token.take()` then `send_packet`. -/
def pass_on_token (edSign : Bytes → Bytes → Bytes) (ps : PassiveStation) :
    PassiveStation × TResult :=
  match ps.curr_token with
  | some curr_token =>
      ({ ps with curr_token := none } : PassiveStation).send_packet edSign
        (.TokenPass curr_token)
  | none => (ps, .error .TokenPending)

end PassiveStation

/-! ## Externally observable monitor lifetime

A monitor's public surface after `host` is: drain the receive queue
(`recv_all`, whose queue holds join requests, token passes, leaves and stray
join replies) and drive the rotation (`poll_token_pass`).  `MEvent` is one
such external step. -/

/-- One externally observable monitor step. -/
inductive MEvent where
  | recvAll (queue : List QueuedPacket) (now : ℤ)
  | poll (now : ℤ) (wall : Nat)

/-- Apply one step.  A `poll` whose chosen station has no registered address
would panic in the source (`unwrap`); the process state is left as is. -/
def applyEvent (edVerify : Bytes → Bytes → Bytes → Bool)
    (edSign : Bytes → Bytes → Bytes) (s : ActiveStation) : MEvent → ActiveStation
  | .recvAll queue now => (ActiveStation.recv_all edVerify edSign s queue now).1
  | .poll now wall =>
    match s.poll_token_pass edSign now wall with
    | some r => r.1
    | none => s

/-- Run a sequence of external steps. -/
def runEvents (edVerify : Bytes → Bytes → Bytes → Bool)
    (edSign : Bytes → Bytes → Bytes) (s : ActiveStation) :
    List MEvent → ActiveStation
  | [] => s
  | e :: rest => runEvents edVerify edSign (applyEvent edVerify edSign s e) rest

/-- The C5 invariant: the membership table and the rotation-status table
hold the same key list. -/
def keysEq (s : ActiveStation) : Prop :=
  s.connected_stations.map Prod.fst = s.token_passer.station_status.map Prod.fst

lemma map_fst_if_update {α β : Type} [DecidableEq α] (l : List (α × β))
    (id : α) (v : β) :
    (l.map (fun e => if e.1 = id then (e.1, v) else e)).map Prod.fst =
      l.map Prod.fst := by
  rw [List.map_map]
  apply List.map_congr_left
  intro e _
  by_cases h : e.1 = id <;> simp [h]

lemma map_fst_setFlag (l : List (WorkStationId × Bool)) (id : WorkStationId)
    (v : Bool) :
    (TokenPasser.setFlag l id v).map Prod.fst = l.map Prod.fst :=
  map_fst_if_update l id v

lemma map_fst_eraseP {α β : Type} (q : α → Bool) (l : List (α × β)) :
    (l.eraseP (fun e => q e.1)).map Prod.fst = (l.map Prod.fst).eraseP q := by
  induction l with
  | nil => rfl
  | cons e t ih =>
    by_cases h : q e.1
    · simp [List.eraseP_cons, h]
    · simp [List.eraseP_cons, h, ih]

lemma keysEq_send_packet (edSign : Bytes → Bytes → Bytes) (s : ActiveStation)
    (addr : SockAddr) (p : PacketType) (h : keysEq s) :
    keysEq (s.send_packet edSign addr p) := h

lemma keysEq_add_station (s : ActiveStation) (id : WorkStationId)
    (addr : SockAddr) (h : keysEq s) : keysEq (s.add_station id addr) := by
  unfold ActiveStation.add_station keysEq
  by_cases hm : (s.get_station_addr id).isSome
  · simp only [hm, if_true]
    rw [map_fst_if_update]
    exact h
  · unfold keysEq at h
    simp [hm, h]

lemma keysEq_remove_station (s : ActiveStation) (id : WorkStationId)
    (h : keysEq s) : keysEq (s.remove_station id) := by
  unfold ActiveStation.remove_station keysEq
  by_cases hm : (s.get_station_addr id).isSome
  · simp only [hm, if_true]
    rw [map_fst_eraseP (fun a => decide (a = id)) s.connected_stations,
        map_fst_eraseP (fun a => decide (a = id)) s.token_passer.station_status, h]
  · simpa [hm] using h

lemma keysEq_recv_join_request (edSign : Bytes → Bytes → Bytes)
    (s : ActiveStation) (addr : SockAddr) (id : WorkStationId) (pw : Bytes)
    (h : keysEq s) : keysEq (s.recv_join_request edSign addr id pw).1 := by
  unfold ActiveStation.recv_join_request
  cases hga : s.get_station_addr id with
  | none =>
    simp only
    cases hc : s.check_join_request id pw with
    | error e => exact keysEq_send_packet _ _ _ _ h
    | ok u => exact keysEq_add_station _ _ _ (keysEq_send_packet _ _ _ _ h)
  | some a =>
    by_cases he : a = addr
    · simpa [he] using keysEq_send_packet edSign s a (.JoinReply (.Deny (ascii "Already joined"))) h
    · simp only [he, if_false]
      cases hc : s.check_join_request id pw with
      | error e => exact keysEq_send_packet _ _ _ _ h
      | ok u => exact keysEq_add_station _ _ _ (keysEq_send_packet _ _ _ _ h)

lemma status_keys_recv_token (edVerify : Bytes → Bytes → Bytes → Bool)
    (tp : TokenPasser) (tok : Token) (id : WorkStationId) (now : ℤ) :
    (tp.recv_token edVerify tok id now).1.station_status.map Prod.fst =
      tp.station_status.map Prod.fst := by
  unfold TokenPasser.recv_token
  by_cases hm : tp.hasStation id
  · simp only [hm, if_true]
    cases TokenPasser.check_token_validity edVerify
        { tp with station_status := TokenPasser.setFlag tp.station_status id true,
                  pass_mode := .Received } tok id now with
    | ok u => simp [map_fst_setFlag]
    | error e => simp [map_fst_setFlag]
  · simp [hm]

lemma keysEq_recv_token_pass (edVerify : Bytes → Bytes → Bytes → Bool)
    (s : ActiveStation) (addr : SockAddr) (id : WorkStationId) (tok : Token)
    (now : ℤ) (h : keysEq s) :
    keysEq (s.recv_token_pass edVerify addr id tok now).1 := by
  unfold ActiveStation.recv_token_pass
  cases hga : s.get_station_addr id with
  | none =>
    unfold keysEq at h ⊢
    simpa [status_keys_recv_token] using h
  | some a =>
    by_cases he : a ≠ addr
    · simpa [he] using h
    · unfold keysEq at h ⊢
      simpa [he, status_keys_recv_token] using h

lemma keysEq_recv_leave (s : ActiveStation) (addr : SockAddr)
    (id : WorkStationId) (h : keysEq s) : keysEq (s.recv_leave addr id).1 := by
  unfold ActiveStation.recv_leave
  cases hga : s.get_station_addr id with
  | none => simpa using h
  | some a =>
    by_cases he : a = addr
    · simpa [he] using keysEq_remove_station s id h
    · simpa [he] using h

lemma status_keys_select (tp : TokenPasser) (now : ℤ) :
    (tp.select_next_station now).2.station_status.map Prod.fst =
      tp.station_status.map Prod.fst := by
  unfold TokenPasser.select_next_station
  by_cases hz : tp.station_status.length = 0
  · simp [hz]
  · simp only [hz, if_false]
    cases hf : tp.station_status.find? (fun e => !e.2) with
    | some e => simp [TokenPasser.pass_token]
    | none =>
      simp only
      cases hl : (tp.station_status.map (fun e => (e.1, false))).getLast? with
      | some l => simp [TokenPasser.pass_token, map_fst_if_update, List.map_map]
      | none => simp

lemma keysEq_pass_on_token (edSign : Bytes → Bytes → Bytes) (s : ActiveStation)
    (now : ℤ) (wall : Nat) (r : ActiveStation × TResult)
    (hr : s.pass_on_token edSign now wall = some r) (h : keysEq s) :
    keysEq r.1 := by
  unfold ActiveStation.pass_on_token at hr
  rcases hsel : s.token_passer.select_next_station now with ⟨sel1, tp1⟩
  rw [hsel] at hr
  have hkeys : tp1.station_status.map Prod.fst =
      s.token_passer.station_status.map Prod.fst := by
    have hs := status_keys_select s.token_passer now
    rw [hsel] at hs
    exact hs
  cases sel1 with
  | none =>
    simp only at hr
    cases hr
    unfold keysEq at h ⊢
    simp only
    rw [hkeys]
    exact h
  | some next =>
    simp only at hr
    cases hga : s.get_station_addr next with
    | none => rw [hga] at hr; cases hr
    | some addr =>
      rw [hga] at hr
      simp only at hr
      cases hr
      unfold keysEq at h ⊢
      simp only [ActiveStation.send_packet, TokenPasser.pass_token]
      rw [hkeys]
      exact h

lemma keysEq_recv_all (edVerify : Bytes → Bytes → Bytes → Bool)
    (edSign : Bytes → Bytes → Bytes) (queue : List QueuedPacket)
    (s : ActiveStation) (now : ℤ) (h : keysEq s) :
    keysEq (ActiveStation.recv_all edVerify edSign s queue now).1 := by
  induction queue generalizing s with
  | nil => exact h
  | cons qp rest ih =>
    unfold ActiveStation.recv_all
    cases hv : s.verify_recv_packet edVerify qp with
    | error e => exact h
    | ok u =>
      have step : ∀ st : ActiveStation × TResult,
          keysEq st.1 →
          keysEq (match st with
            | (s1, .ok _) => ActiveStation.recv_all edVerify edSign s1 rest now
            | (s1, .error e) => (s1, .error e)).1 := by
        intro st hst
        match st with
        | (s1, .ok u) => exact ih s1 hst
        | (s1, .error e) => exact hst
      cases hc : qp.1.content with
      | JoinRequest pw =>
        exact step (s.recv_join_request edSign qp.2 qp.1.header.val.source pw)
          (keysEq_recv_join_request edSign s qp.2 qp.1.header.val.source pw h)
      | JoinReply r => exact step (s, .ok ()) h
      | TokenPass token =>
        exact step (s.recv_token_pass edVerify qp.2 qp.1.header.val.source token now)
          (keysEq_recv_token_pass edVerify s qp.2 qp.1.header.val.source token now h)
      | Leave =>
        exact step (s.recv_leave qp.2 qp.1.header.val.source)
          (keysEq_recv_leave s qp.2 qp.1.header.val.source h)

lemma keysEq_applyEvent (edVerify : Bytes → Bytes → Bytes → Bool)
    (edSign : Bytes → Bytes → Bytes) (s : ActiveStation) (e : MEvent)
    (h : keysEq s) : keysEq (applyEvent edVerify edSign s e) := by
  cases e with
  | recvAll queue now => exact keysEq_recv_all edVerify edSign queue s now h
  | poll now wall =>
    unfold applyEvent ActiveStation.poll_token_pass
    by_cases hready : s.token_passer.pass_ready now
    · simp only [hready, if_true]
      cases hp : s.pass_on_token edSign now wall with
      | none => exact h
      | some r => exact keysEq_pass_on_token edSign s now wall r hp h
    · simpa [hready] using h

lemma keysEq_runEvents (edVerify : Bytes → Bytes → Bytes → Bool)
    (edSign : Bytes → Bytes → Bytes) (events : List MEvent) (s : ActiveStation)
    (h : keysEq s) : keysEq (runEvents edVerify edSign s events) := by
  induction events generalizing s with
  | nil => exact h
  | cons e rest ih =>
    exact ih (applyEvent edVerify edSign s e) (keysEq_applyEvent edVerify edSign s e h)

/-! ## Fixtures for concrete evaluations -/

/-- Station id `A`. -/
def idA : WorkStationId := ⟨ascii "A"⟩

/-- Station id `B`. -/
def idB : WorkStationId := ⟨ascii "B"⟩

/-- Station id `C`. -/
def idC : WorkStationId := ⟨ascii "C"⟩

/-- A verification oracle that accepts everything. -/
def edvTrue : Bytes → Bytes → Bytes → Bool := fun _ _ _ => true

/-- A verification oracle that accepts exactly the signature `[9]`. -/
def edvSig9 : Bytes → Bytes → Bytes → Bool := fun _ _ sig => decide (sig = [9])

/-- A signing oracle producing the signature `[9]`. -/
def edSign9 : Bytes → Bytes → Bytes := fun _ _ => [9]

/-- A stub token (signed header from `idA`, no frames). -/
def tokStub : Token := ⟨⟨[], [9], ⟨idA, 0⟩, []⟩, []⟩

/-! ## Claim theorems -/

/-- Claim C1: the spec's round-trip invariant `read(write(v)) = v` is the
intent (the crate's own `token::tests::deserialize` and
`packet::tests::deserialize` assert it), but the code violates it:
`read_byte_vec` calls `read_exact` on the zero-length slice of
`Vec::with_capacity(len)`, so every length-prefixed vector or string decodes
as empty.  Evaluating at the id named `"Test"` (used by the crate's own
tests): writing emits the 2-byte length prefix and the 4 name bytes, reading
consumes only the prefix and returns the empty-named id — not the original
value. -/
theorem claim_C1_roundtrip_fails :
    WorkStationId.read (WorkStationId.write (WorkStationId.new (ascii "Test"))) =
      .ok ⟨[]⟩ (ascii "Test") ∧
    (⟨[]⟩ : WorkStationId) ≠ WorkStationId.new (ascii "Test") := by
  decide

/-- Claim C2: the spec says an out-of-range tag byte is a parse failure,
never a panic; the source's wildcard match arms are
`panic!("Index out of bounds: {n}.")` (and `read_string` unwraps UTF-8
decoding).  Evaluating the code: `read_sock_addr` on the buffer `[2]` and
`PacketType::read` on the buffer `[4]` both panic instead of returning an
error. -/
theorem claim_C2_reader_panics :
    read_sock_addr [2] = .panicked ∧
    PacketType.read (fun _ => true) (fun _ => true) [4] = .panicked ∧
    TokenFrameType.read [3] = .panicked := by
  decide

/-- Claim C9 counterexample: `WorkStationId` equality is *not*
case-insensitive — construction never folds case and `PartialEq`/`Hash` are
derived structurally on the name — so the ids built from `"a"` and `"A"`
differ, though the claim says they compare equal. -/
theorem claim_C9_counterexample :
    WorkStationId.new (ascii "a") ≠ WorkStationId.new (ascii "A") := by
  decide

lemma new_name_take (a : Bytes) : (WorkStationId.new a).name = a.take 8 := by
  unfold WorkStationId.new
  by_cases h : 8 < a.length
  · simp [h]
  · simp only [h, if_false]
    rw [List.take_of_length_le (by omega)]

/-- Claim C9 amended: construction truncates the name to at most 8 octets,
and equality (hence derived hashing, which is structural on the name) is
*case-sensitive*: two constructed ids are equal exactly when the first
8 octets of their names coincide byte for byte. -/
theorem claim_C9_amended (a b : Bytes) :
    (WorkStationId.new a).name.length ≤ 8 ∧
    (WorkStationId.new a = WorkStationId.new b ↔ a.take 8 = b.take 8) := by
  constructor
  · rw [new_name_take]
    simp [List.length_take]
  · constructor
    · intro h
      have := congrArg WorkStationId.name h
      rwa [new_name_take, new_name_take] at this
    · intro h
      have h1 : (WorkStationId.new a).name = (WorkStationId.new b).name := by
        rw [new_name_take, new_name_take, h]
      cases hA : WorkStationId.new a with
      | mk na =>
        cases hB : WorkStationId.new b with
        | mk nb =>
          rw [hA, hB] at h1
          simpa using h1

/-- Claim C10: the source's `size()` functions are meant to report the
serialized length but undercount it: `TokenHeader::size` is
`origin.size() + 4` although `write` emits a 2-byte string-length prefix,
the name bytes and an 8-byte big-endian timestamp.  For the header with
origin `"Test"`: 14 bytes written, `size() = 8`. -/
theorem claim_C10_size_mismatch :
    (TokenHeader.write ⟨WorkStationId.new (ascii "Test"), 0⟩).length = 14 ∧
    TokenHeader.size ⟨WorkStationId.new (ascii "Test"), 0⟩ = 8 ∧
    TokenHeader.size ⟨WorkStationId.new (ascii "Test"), 0⟩ ≠
      (TokenHeader.write ⟨WorkStationId.new (ascii "Test"), 0⟩).length := by
  decide

/-- Driver for the spec's rotation-fairness scenario: repeatedly
`select_next_station`, each time feeding the token back from the chosen
station via `recv_token` (which marks it as having held this round). -/
def selectSeq (edv : Bytes → Bytes → Bytes → Bool) (tok : Token) :
    Nat → TokenPasser → List (Option WorkStationId)
  | 0, _ => []
  | n + 1, tp =>
    match (tp.select_next_station 0).1, (tp.select_next_station 0).2 with
    | some chosen, tp1 =>
        some chosen :: selectSeq edv tok n (tp1.recv_token edv tok chosen 0).1
    | none, _ => [none]

/-- The passer state with members `A`, `B`, `C` when the hash map's
iteration order happens to coincide with insertion order. -/
def tpABC : TokenPasser :=
  { TokenPasser.new 1 with station_status := [(idA, false), (idB, false), (idC, false)] }

/-- The same three members under the iteration order `[B, A, C]` — equally
possible for `std::collections::HashMap`, whose iteration order is
arbitrary (seeded per process), as the source's own TODO at `pass.rs:21`
records. -/
def tpBAC : TokenPasser :=
  { TokenPasser.new 1 with station_status := [(idB, false), (idA, false), (idC, false)] }

/-- Claim C3: `select_next_station` does return none exactly on an empty
table, picks the first not-yet-held entry, and on a completed round resets
all flags and picks the last entry — but all of that in the `HashMap`'s
*iteration* order, which is arbitrary, not insertion order.  Only when the
iteration order happens to equal the insertion order `[A, B, C]` does the
five-selection scenario yield `A, B, C, C, A`; under the equally possible
iteration order `[B, A, C]` of the same three members the first selection
is already `B`, not `A`. -/
theorem claim_C3_iteration_order_not_insertion_order :
    selectSeq edvTrue tokStub 5 tpABC = [some idA, some idB, some idC, some idC, some idA] ∧
    (tpBAC.select_next_station 0).1 = some idB ∧
    (tpBAC.select_next_station 0).1 ≠ some idA ∧
    ((TokenPasser.new 1).select_next_station 0).1 = none := by
  decide

/-- The monitor state of the C7 scenario: token passed to `A` at time 0,
`max_passover_time = 1`, no reply. -/
def c7tp : TokenPasser :=
  { TokenPasser.new 1 with station_status := [(idA, false), (idB, false)],
                           state := some (idA, 0), pass_mode := .Passed }

/-- Claim C7 counterexample: after the pass to `A` times out
(`pass_ready` returns true at time 5), the next `select_next_station` picks
`A` *again* — the first entry whose `held_this_round` is still false — and
not the next station `B` as the claim states. -/
theorem claim_C7_counterexample :
    c7tp.pass_ready 5 = true ∧
    (c7tp.select_next_station 5).1 = some idA ∧
    (c7tp.select_next_station 5).1 ≠ some idB := by
  decide

/-- Claim C7 amended: when the monitor has passed the token (mode not
`Received`, in-flight entry `(x, sent)`) and at least `max_passover_time`
has elapsed, `pass_ready()` returns true; the pass executed next re-selects
the *first* station in iteration order whose `held_this_round` is false —
which is the timed-out holder `x` itself whenever `x` is that first
not-held entry (as it is when nothing else changed since `x` was chosen) —
and every `held_this_round` flag is left untouched by the selection. -/
theorem claim_C7_amended (tp : TokenPasser) (x : WorkStationId)
    (sent now : ℤ) (b : Bool)
    (hmode : tp.pass_mode ≠ .Received)
    (hstate : tp.state = some (x, sent))
    (htime : tp.max_passover_time ≤ now - sent)
    (hfirst : tp.station_status.find? (fun e => !e.2) = some (x, b)) :
    tp.pass_ready now = true ∧
    (tp.select_next_station now).1 = some x ∧
    (tp.select_next_station now).2.station_status = tp.station_status := by
  have hne : ¬ tp.station_status.length = 0 := by
    intro h0
    rw [List.length_eq_zero.mp h0] at hfirst
    simp at hfirst
  refine ⟨?_, ?_, ?_⟩
  · unfold TokenPasser.pass_ready
    rw [hstate]
    cases tp.pass_mode <;> simp [htime]
  · unfold TokenPasser.select_next_station
    rw [if_neg hne, hfirst]
  · unfold TokenPasser.select_next_station
    rw [if_neg hne, hfirst]
    rfl

/-- Witness for the amended C7 theorem at the concrete timed-out state. -/
theorem claim_C7_amended_witness :
    c7tp.pass_ready 5 = true ∧
    (c7tp.select_next_station 5).1 = some idA ∧
    (c7tp.select_next_station 5).2.station_status = c7tp.station_status :=
  claim_C7_amended c7tp idA 0 5 false (by decide) (by decide) (by decide) (by decide)

lemma find?_setFlag_self (l : List (WorkStationId × Bool)) (id : WorkStationId)
    (v : Bool) (h : l.any (fun e => decide (e.1 = id)) = true) :
    (TokenPasser.setFlag l id v).find? (fun e => decide (e.1 = id)) = some (id, v) := by
  induction l with
  | nil => simp at h
  | cons e t ih =>
    by_cases he : e.1 = id
    · simp only [TokenPasser.setFlag, List.map_cons, he, if_true]
      rw [List.find?_cons_of_pos _ (by simp)]
    · have h' : t.any (fun e => decide (e.1 = id)) = true := by
        simpa [he] using h
      simp only [TokenPasser.setFlag, List.map_cons, he, if_false]
      rw [List.find?_cons_of_neg _ (by simp [he])]
      exact ih h'

lemma find?_setFlag_other (l : List (WorkStationId × Bool))
    (id other : WorkStationId) (v : Bool) (hne : other ≠ id) :
    (TokenPasser.setFlag l id v).find? (fun e => decide (e.1 = other)) =
      l.find? (fun e => decide (e.1 = other)) := by
  induction l with
  | nil => rfl
  | cons e t ih =>
    by_cases he : e.1 = id
    · have hno : ¬ e.1 = other := by
        rw [he]
        exact fun hh => hne hh.symm
      simp only [TokenPasser.setFlag, List.map_cons, he, if_true]
      rw [List.find?_cons_of_neg _ (by simp [hne.symm]),
          List.find?_cons_of_neg _ (by simp [hno])]
      exact ih
    · simp only [TokenPasser.setFlag, List.map_cons, he, if_false]
      by_cases ho : e.1 = other
      · rw [List.find?_cons_of_pos _ (by simp [ho]),
            List.find?_cons_of_pos _ (by simp [ho])]
      · rw [List.find?_cons_of_neg _ (by simp [ho]),
            List.find?_cons_of_neg _ (by simp [ho])]
        exact ih

/-- Claim C4: the `recv_token` contract.  An unknown sender is rejected with
`InvalidToken` and nothing changes.  A known sender is marked as having held
this round (all other flags untouched) and `pass_mode` becomes `Received`
regardless of validity; the call succeeds exactly when a pass is in flight,
the elapsed time does not exceed `max_passover_time`, the token header's
signature verifies and the sender is the expected holder; `curr_token` is
replaced by the new token exactly on success. -/
theorem claim_C4_recv_token_contract (edv : Bytes → Bytes → Bytes → Bool)
    (tp : TokenPasser) (tok : Token) (sender : WorkStationId) (now : ℤ) :
    (tp.hasStation sender = false →
      tp.recv_token edv tok sender now = (tp, .error (.InvalidToken sender tok))) ∧
    (tp.hasStation sender = true →
      (tp.recv_token edv tok sender now).1.flagOf sender = some true ∧
      (∀ other, other ≠ sender →
        (tp.recv_token edv tok sender now).1.flagOf other = tp.flagOf other) ∧
      (tp.recv_token edv tok sender now).1.pass_mode = .Received ∧
      ((tp.recv_token edv tok sender now).2 = .ok () ↔
        ∃ exp sent, tp.state = some (exp, sent) ∧
          now - sent ≤ tp.max_passover_time ∧
          tok.header.verify edv = true ∧ sender = exp) ∧
      ((tp.recv_token edv tok sender now).2 = .ok () →
        (tp.recv_token edv tok sender now).1.curr_token = some tok) ∧
      (¬ (tp.recv_token edv tok sender now).2 = .ok () →
        (tp.recv_token edv tok sender now).1.curr_token = tp.curr_token)) := by
  constructor
  · intro h
    simp [TokenPasser.recv_token, h]
  · intro h
    have hany : tp.station_status.any (fun e => decide (e.1 = sender)) = true := h
    unfold TokenPasser.recv_token
    simp only [h, if_true]
    cases hv : TokenPasser.check_token_validity edv
        { tp with station_status := TokenPasser.setFlag tp.station_status sender true,
                  pass_mode := .Received } tok sender now with
    | ok u =>
      cases u
      refine ⟨?_, ?_, rfl, ?_, fun _ => rfl, fun hne => absurd rfl hne⟩
      · unfold TokenPasser.flagOf
        rw [find?_setFlag_self tp.station_status sender true hany]
        rfl
      · intro other hne
        unfold TokenPasser.flagOf
        rw [find?_setFlag_other tp.station_status sender other true hne]
      · unfold TokenPasser.check_token_validity at hv
        simp only at hv
        constructor
        · intro _
          cases hst : tp.state with
          | none => rw [hst] at hv; cases hv
          | some p =>
            rcases p with ⟨exp, sent⟩
            rw [hst] at hv
            simp only at hv
            by_cases h1 : now - sent ≤ tp.max_passover_time
            · rw [if_pos h1] at hv
              by_cases h2 : tok.header.verify edv = true
              · rw [if_pos h2] at hv
                by_cases h3 : sender = exp
                · exact ⟨exp, sent, rfl, h1, h2, h3⟩
                · rw [if_neg h3] at hv; cases hv
              · rw [if_neg h2] at hv; cases hv
            · rw [if_neg h1] at hv; cases hv
        · intro _
          rfl
    | error e =>
      refine ⟨?_, ?_, rfl, ?_, ?_, fun _ => rfl⟩
      · unfold TokenPasser.flagOf
        rw [find?_setFlag_self tp.station_status sender true hany]
        rfl
      · intro other hne
        unfold TokenPasser.flagOf
        rw [find?_setFlag_other tp.station_status sender other true hne]
      · constructor
        · intro habs
          cases habs
        · rintro ⟨exp, sent, hstate, h1, h2, h3⟩
          unfold TokenPasser.check_token_validity at hv
          simp only at hv
          rw [hstate] at hv
          simp only at hv
          rw [if_pos h1, if_pos h2, if_pos h3] at hv
          cases hv
      · intro habs
        cases habs

/-- The monitor state of the C4 witness: `A` is a member, the token is in
flight to `A` since time 0. -/
def c4tp : TokenPasser :=
  { TokenPasser.new 1 with station_status := [(idA, false)],
                           state := some (idA, 0), pass_mode := .Passed }

/-- Witness for the C4 contract at a concrete in-flight state. -/
theorem claim_C4_witness :
    (c4tp.recv_token edvTrue tokStub idA 0).2 = .ok () ∧
    (c4tp.recv_token edvTrue tokStub idA 0).1.curr_token = some tokStub ∧
    (c4tp.recv_token edvTrue tokStub idA 0).1.flagOf idA = some true := by
  have h := claim_C4_recv_token_contract edvTrue c4tp tokStub idA 0
  have h2 := h.2 (by decide)
  have hok : (c4tp.recv_token edvTrue tokStub idA 0).2 = .ok () :=
    h2.2.2.2.1.mpr ⟨idA, 0, rfl, by decide, by decide, rfl⟩
  exact ⟨hok, h2.2.2.2.2.1 hok, h2.1⟩

/-- Loopback address, port 4000. -/
def addrOne : SockAddr := ⟨.v4 [127, 0, 0, 1], 4000⟩

/-- Loopback address, port 4001. -/
def addrTwo : SockAddr := ⟨.v4 [127, 0, 0, 1], 4001⟩

/-- A packet whose envelope signature (`[0]`) does not verify under
`edvSig9`. -/
def badPacket : Packet := ⟨⟨[], [0], ⟨idB⟩, []⟩, .Leave⟩

/-- A well-signed join request from `C` with the right password. -/
def goodJoin : Packet := ⟨⟨[], [9], ⟨idC⟩, []⟩, .JoinRequest (ascii "pw")⟩

/-- A freshly hosted monitor accepting up to 10 stations, password `"pw"`. -/
def c6host : ActiveStation := ActiveStation.host idA [] (ascii "pw") true 10 1

/-- Claim C6: the spec requires `recv_all` to keep draining past a packet
that fails verification, but the source `return Err(e)`s inside the drain
loop.  Evaluating the code on the queue `[badPacket, goodJoin]`: the call
returns `InvalidSignature` with the monitor unchanged — the perfectly valid
join request queued behind the corrupt packet is never processed in this
call — whereas the same join alone is admitted. -/
theorem claim_C6_recv_all_aborts :
    ActiveStation.recv_all edvSig9 edSign9 c6host
      [(badPacket, addrOne), (goodJoin, addrTwo)] 0 =
      (c6host, .error .InvalidSignature) ∧
    (ActiveStation.recv_all edvSig9 edSign9 c6host
      [(goodJoin, addrTwo)] 0).1.connected_stations.map Prod.fst = [idC] := by
  decide

/-- A passive station holding a token while offline (reachable: `shutdown`
sets the mode to `Offline` without clearing the token slot). -/
def c8psOffline : PassiveStation :=
  { id := idA, pub_key := [], conn_mode := .Offline, cached_frames := [],
    curr_token := some tokStub, sent_packets := [] }

/-- Claim C8 counterexample: with a token held but no connected monitor,
`pass_on_token` does *not* enqueue a `TokenPass` — it returns
`NotConnected` (not `TokenPending`), and the token has nevertheless been
moved out of the slot and is lost.  The claim's "otherwise it removes the
held token … and enqueues a TokenPass packet to the monitor" fails here. -/
theorem claim_C8_counterexample :
    (c8psOffline.pass_on_token edSign9).2 ≠ .error .TokenPending ∧
    (c8psOffline.pass_on_token edSign9).2 = .error .NotConnected ∧
    (c8psOffline.pass_on_token edSign9).1.sent_packets = [] ∧
    (c8psOffline.pass_on_token edSign9).1.curr_token = none := by
  decide

/-- Claim C8 amended: `pass_on_token` returns `TokenPending` iff no token is
held.  Otherwise the token is moved out of the slot unconditionally; when
the station is connected, a `TokenPass` carrying it is enqueued to the
monitor and the call succeeds, and when it is not connected the call
returns `NotConnected` with nothing enqueued (the token is dropped). -/
theorem claim_C8_amended (edSign : Bytes → Bytes → Bytes) (ps : PassiveStation) :
    ((ps.pass_on_token edSign).2 = .error .TokenPending ↔ ps.curr_token = none) ∧
    (∀ t, ps.curr_token = some t →
      (ps.pass_on_token edSign).1.curr_token = none) ∧
    (∀ t mid maddr, ps.curr_token = some t → ps.conn_mode = .Connected mid maddr →
      ps.pass_on_token edSign =
        ({ ps with
            curr_token := none,
            sent_packets := ps.sent_packets ++
              [(⟨Signed.new edSign ps.pub_key PacketHeader.write ⟨ps.id⟩,
                 .TokenPass t⟩, maddr)] }, .ok ())) ∧
    (∀ t, ps.curr_token = some t →
      (∀ mid maddr, ps.conn_mode ≠ .Connected mid maddr) →
      ps.pass_on_token edSign = ({ ps with curr_token := none }, .error .NotConnected)) := by
  refine ⟨?_, ?_, ?_, ?_⟩
  · cases hct : ps.curr_token with
    | none =>
      simp [PassiveStation.pass_on_token, PassiveStation.send_packet, hct]
    | some t =>
      cases hcm : ps.conn_mode with
      | Offline =>
        simp [PassiveStation.pass_on_token, PassiveStation.send_packet, hct, hcm]
      | Pending a =>
        simp [PassiveStation.pass_on_token, PassiveStation.send_packet, hct, hcm]
      | Connected i a =>
        simp [PassiveStation.pass_on_token, PassiveStation.send_packet,
          PassiveStation.send_packet_to, hct, hcm]
  · intro t hct
    cases hcm : ps.conn_mode with
    | Offline =>
      simp [PassiveStation.pass_on_token, PassiveStation.send_packet, hct, hcm]
    | Pending a =>
      simp [PassiveStation.pass_on_token, PassiveStation.send_packet, hct, hcm]
    | Connected i a =>
      simp [PassiveStation.pass_on_token, PassiveStation.send_packet,
        PassiveStation.send_packet_to, hct, hcm]
  · intro t mid maddr hct hcm
    simp [PassiveStation.pass_on_token, PassiveStation.send_packet,
      PassiveStation.send_packet_to, hct, hcm]
  · intro t hct hno
    cases hcm : ps.conn_mode with
    | Offline =>
      simp [PassiveStation.pass_on_token, PassiveStation.send_packet, hct, hcm]
    | Pending a =>
      simp [PassiveStation.pass_on_token, PassiveStation.send_packet, hct, hcm]
    | Connected i a => exact absurd hcm (hno i a)

/-- A passive station connected to monitor `B` at `addrOne`, holding a
token. -/
def c8psConn : PassiveStation :=
  { id := idA, pub_key := [], conn_mode := .Connected idB addrOne,
    cached_frames := [], curr_token := some tokStub, sent_packets := [] }

/-- Witness for the amended C8 theorem at a concrete connected station. -/
theorem claim_C8_witness :
    c8psConn.pass_on_token edSign9 =
      ({ c8psConn with
          curr_token := none,
          sent_packets := [(⟨Signed.new edSign9 [] PacketHeader.write ⟨idA⟩,
            .TokenPass tokStub⟩, addrOne)] }, .ok ()) := by
  have h := (claim_C8_amended edSign9 c8psConn).2.2.1 tokStub idB addrOne rfl rfl
  simpa using h

/-- Claim C5: after `host` and any sequence of externally observable steps
(queue drains carrying join requests, token passes, leaves and stray
replies, and token polls), the membership table and the rotation-status
table hold exactly the same ids, and in particular have the same size. -/
theorem claim_C5_membership_matches_status
    (edVerify : Bytes → Bytes → Bytes → Bool) (edSign : Bytes → Bytes → Bytes)
    (id : WorkStationId) (pub password : Bytes) (accept : Bool)
    (maxConn : Nat) (maxPass : ℤ) (events : List MEvent) :
    (∀ wid : WorkStationId,
      wid ∈ (runEvents edVerify edSign
        (ActiveStation.host id pub password accept maxConn maxPass)
        events).connected_stations.map Prod.fst ↔
      wid ∈ (runEvents edVerify edSign
        (ActiveStation.host id pub password accept maxConn maxPass)
        events).token_passer.station_status.map Prod.fst) ∧
    (runEvents edVerify edSign
      (ActiveStation.host id pub password accept maxConn maxPass)
      events).connected_stations.length =
    (runEvents edVerify edSign
      (ActiveStation.host id pub password accept maxConn maxPass)
      events).token_passer.station_status.length := by
  have h : keysEq (runEvents edVerify edSign
      (ActiveStation.host id pub password accept maxConn maxPass) events) :=
    keysEq_runEvents edVerify edSign events _ rfl
  unfold keysEq at h
  constructor
  · intro wid
    rw [h]
  · have hlen := congrArg List.length h
    simpa using hlen

/-- Witness for the amended C9 theorem: two 10-byte names differing only
past the truncation point produce equal ids. -/
theorem claim_C9_amended_witness :
    (WorkStationId.new (ascii "ABCDEFGHIJ")).name.length ≤ 8 ∧
    (WorkStationId.new (ascii "ABCDEFGHIJ") = WorkStationId.new (ascii "ABCDEFGHIK") ↔
      (ascii "ABCDEFGHIJ").take 8 = (ascii "ABCDEFGHIK").take 8) :=
  claim_C9_amended (ascii "ABCDEFGHIJ") (ascii "ABCDEFGHIK")

/-- Witness for C5 at a concrete monitor run: host, then drain a queue
holding one valid join request. -/
theorem claim_C5_witness :
    (∀ wid : WorkStationId,
      wid ∈ (runEvents edvSig9 edSign9
        (ActiveStation.host idA [] (ascii "pw") true 2 1)
        [.recvAll [(goodJoin, addrTwo)] 0]).connected_stations.map Prod.fst ↔
      wid ∈ (runEvents edvSig9 edSign9
        (ActiveStation.host idA [] (ascii "pw") true 2 1)
        [.recvAll [(goodJoin, addrTwo)] 0]).token_passer.station_status.map Prod.fst) ∧
    (runEvents edvSig9 edSign9
      (ActiveStation.host idA [] (ascii "pw") true 2 1)
      [.recvAll [(goodJoin, addrTwo)] 0]).connected_stations.length =
    (runEvents edvSig9 edSign9
      (ActiveStation.host idA [] (ascii "pw") true 2 1)
      [.recvAll [(goodJoin, addrTwo)] 0]).token_passer.station_status.length :=
  claim_C5_membership_matches_status edvSig9 edSign9 idA [] (ascii "pw") true 2 1
    [.recvAll [(goodJoin, addrTwo)] 0]

end TokenRing
